import Mathlib

/-!
Shallow embedding of `skill_analyzer.py` from the repository
`arnavam/the-scrapper`, together with a model of the Name Normalizer
component that the specification describes.

The Python module matches job-description text against a static lexicon of
regular-expression rules (`PREDEFINED_SKILLS`, compiled once into
`COMPILED_PATTERNS`), aggregates per-job skill sets into a `Counter`,
ranks them by count with percentages, and exposes an `analyze_skills`
pipeline.  The regular expressions use only a small fragment of Python
`re`: literal characters, `\b` word boundaries, the classes `\s` and
`\d`, the wildcard `.`, non-capturing groups `(?:...)`, alternation `|`,
the postfix operators `?`, `*`, `+` (with `*`/`+` applied only to
single-character atoms in this lexicon), and negative lookahead
`(?!...)`.  We embed exactly that fragment.
-/

namespace Scrapper

/-- Abstract syntax of the regex fragment used by `PREDEFINED_SKILLS`. -/
inductive Rx where
  | eps : Rx
  | chr (c : Char) : Rx
  | cls (cs : List Char) : Rx
  | dot : Rx
  | wb : Rx
  | seq (a b : Rx) : Rx
  | alt (a b : Rx) : Rx
  | opt (a : Rx) : Rx
  | starCls (cs : List Char) : Rx
  | nla (a : Rx) : Rx
deriving Repr, DecidableEq

/-- Python `\w` over the ASCII texts this program handles. -/
def isWordChar (c : Char) : Bool :=
  c.isAlpha || c.isDigit || c == '_'

/-- Python `\b`: the previous and next characters disagree on word-ness
(a missing character counts as non-word). -/
def atBoundary (prev : Option Char) (next : Option Char) : Bool :=
  (match prev with | none => false | some c => isWordChar c) !=
  (match next with | none => false | some c => isWordChar c)

/-- Python `\s` (ASCII whitespace). -/
def wsChars : List Char := [' ', '\t', '\n', '\r', '\x0b', '\x0c']

/-- Python `\d`. -/
def digitChars : List Char := ['0', '1', '2', '3', '4', '5', '6', '7', '8', '9']

/-- Kleene star of a character class, in continuation style: either stop
now, or consume one class character and continue.  Recursion is on the
remaining input. -/
def matchStarCls (cs : List Char) (prev : Option Char) (rem : List Char)
    (k : Option Char → List Char → Bool) : Bool :=
  k prev rem ||
    match rem with
    | [] => false
    | c :: r => cs.contains c && matchStarCls cs (some c) r k

/-- Backtracking matcher in continuation-passing style.  `prev` is the
character just before the current position (for `\b`), `rem` the rest of
the input, and `k` the continuation receiving the position after the
match.  Existence semantics coincides with Python's backtracking search
for the boolean question "does the pattern match here". -/
def matchAt : Rx → Option Char → List Char → (Option Char → List Char → Bool) → Bool
  | .eps, prev, rem, k => k prev rem
  | .chr c, _, rem, k =>
    match rem with
    | [] => false
    | c' :: r => c == c' && k (some c') r
  | .cls cs, _, rem, k =>
    match rem with
    | [] => false
    | c' :: r => cs.contains c' && k (some c') r
  | .dot, _, rem, k =>
    match rem with
    | [] => false
    | c' :: r => c' != '\n' && k (some c') r
  | .wb, prev, rem, k => atBoundary prev rem.head? && k prev rem
  | .seq a b, prev, rem, k => matchAt a prev rem (fun p r => matchAt b p r k)
  | .alt a b, prev, rem, k => matchAt a prev rem k || matchAt b prev rem k
  | .opt a, prev, rem, k => k prev rem || matchAt a prev rem k
  | .starCls cs, prev, rem, k => matchStarCls cs prev rem k
  | .nla a, prev, rem, k => !(matchAt a prev rem (fun _ _ => true)) && k prev rem

/-- Try to match `r` starting at every position of the input
(Python's `pattern.search`). -/
def searchFrom (r : Rx) (prev : Option Char) (rem : List Char) : Bool :=
  matchAt r prev rem (fun _ _ => true) ||
    match rem with
    | [] => false
    | c :: rest => searchFrom r (some c) rest

/-- `re.search` over a whole text. -/
def rxSearch (r : Rx) (text : List Char) : Bool :=
  searchFrom r none text

/-! ### Compiling the pattern strings

A total, fuel-driven recursive-descent reading of the regex fragment.
Every recursive call decreases the fuel; the initial fuel is ample for
the lexicon's patterns.  A pattern outside the fragment compiles to
`none` (and then never matches); all patterns of `PREDEFINED_SKILLS`
compile successfully. -/

/-- One escaped character: `\b`, `\s`, `\d`, or a literal. -/
def escRx (c : Char) : Rx :=
  if c == 'b' then Rx.wb
  else if c == 's' then Rx.cls wsChars
  else if c == 'd' then Rx.cls digitChars
  else Rx.chr c

/-- Apply a postfix operator to an atom.  `*` and `+` are accepted only
on single-character atoms, which is all this lexicon uses. -/
def applyPost (a : Rx) (c : Char) : Option Rx :=
  if c == '?' then some (Rx.opt a)
  else if c == '*' then
    match a with
    | Rx.cls cs => some (Rx.starCls cs)
    | Rx.chr ch => some (Rx.starCls [ch])
    | _ => none
  else if c == '+' then
    match a with
    | Rx.cls cs => some (Rx.seq (Rx.cls cs) (Rx.starCls cs))
    | Rx.chr ch => some (Rx.seq (Rx.chr ch) (Rx.starCls [ch]))
    | _ => none
  else none

mutual

/-- Alternation level: `seq ('|' alt)?`. -/
def pAlt : Nat → List Char → Option (Rx × List Char)
  | 0, _ => none
  | fuel + 1, s =>
    match pSeq fuel s with
    | none => none
    | some (r, rest) =>
      match rest with
      | '|' :: rest' =>
        match pAlt fuel rest' with
        | none => none
        | some (r', rest'') => some (Rx.alt r r', rest'')
      | _ => some (r, rest)

/-- Sequence level: concatenation of postfixed atoms, stopping at `|`,
`)` or the end of the pattern. -/
def pSeq : Nat → List Char → Option (Rx × List Char)
  | 0, _ => none
  | fuel + 1, s =>
    match s with
    | [] => some (Rx.eps, [])
    | ')' :: _ => some (Rx.eps, s)
    | '|' :: _ => some (Rx.eps, s)
    | _ =>
      match pPost fuel s with
      | none => none
      | some (r, rest) =>
        match pSeq fuel rest with
        | none => none
        | some (r', rest') => some (Rx.seq r r', rest')

/-- An atom with an optional postfix operator. -/
def pPost : Nat → List Char → Option (Rx × List Char)
  | 0, _ => none
  | fuel + 1, s =>
    match pAtom fuel s with
    | none => none
    | some (r, rest) =>
      match rest with
      | c :: rest' =>
        if c == '?' || c == '*' || c == '+' then
          match applyPost r c with
          | none => none
          | some r' => some (r', rest')
        else some (r, rest)
      | [] => some (r, rest)

/-- An atom: escape, group, lookahead, wildcard or literal character. -/
def pAtom : Nat → List Char → Option (Rx × List Char)
  | 0, _ => none
  | fuel + 1, s =>
    match s with
    | '\\' :: c :: rest => some (escRx c, rest)
    | '(' :: '?' :: ':' :: rest =>
      match pAlt fuel rest with
      | some (r, ')' :: rest') => some (r, rest')
      | _ => none
    | '(' :: '?' :: '!' :: rest =>
      match pAlt fuel rest with
      | some (r, ')' :: rest') => some (Rx.nla r, rest')
      | _ => none
    | '.' :: rest => some (Rx.dot, rest)
    | c :: rest =>
      if c == ')' || c == '|' || c == '?' || c == '*' || c == '+' ||
          c == '(' || c == '\\' then none
      else some (Rx.chr c, rest)
    | [] => none

end

/-- Compile a pattern string of the lexicon's regex fragment. -/
def compileRx (p : String) : Option Rx :=
  let cs := p.toList
  match pAlt (4 * cs.length + 8) cs with
  | some (r, []) => some r
  | _ => none

/-- Search with a compiled (possibly failed) pattern. -/
def optSearch (o : Option Rx) (text : List Char) : Bool :=
  match o with
  | none => false
  | some r => rxSearch r text

/-! ### The skill lexicon (`skill_analyzer.py`, lines 15-149) -/

/-- The predefined skills table: display name paired with its regex
pattern strings, in the source's order. -/
def PREDEFINED_SKILLS : List (String × List String) := [
  ("Python", [r"\bpython\b"]),
  ("Java", [r"\bjava\b(?!\s*script)"]),
  ("JavaScript", [r"\bjavascript\b", r"\bjs\b"]),
  ("TypeScript", [r"\btypescript\b", r"\bts\b"]),
  ("C++", [r"\bc\+\+\b", r"\bcpp\b"]),
  ("C#", [r"\bc#\b", r"\bcsharp\b"]),
  ("Go", [r"\bgolang\b", r"\bgo\s+(?:programming|language)\b"]),
  ("Rust", [r"\brust\b"]),
  ("R", [r"\br\s+(?:programming|language|studio)\b", r"\br-lang\b"]),
  ("Scala", [r"\bscala\b"]),
  ("Julia", [r"\bjulia\b"]),
  ("MATLAB", [r"\bmatlab\b"]),
  ("Bash", [r"\bbash\b", r"\bshell\s*script"]),
  ("SQL", [r"\bsql\b"]),
  ("TensorFlow", [r"\btensorflow\b", r"\btf\b"]),
  ("PyTorch", [r"\bpytorch\b", r"\btorch\b"]),
  ("Keras", [r"\bkeras\b"]),
  ("scikit-learn", [r"\bscikit-learn\b", r"\bsklearn\b", r"\bscikit\b"]),
  ("Hugging Face", [r"\bhugging\s*face\b", r"\bhf\b", r"\btransformers\b"]),
  ("OpenCV", [r"\bopencv\b"]),
  ("NLTK", [r"\bnltk\b"]),
  ("spaCy", [r"\bspacy\b"]),
  ("JAX", [r"\bjax\b"]),
  ("XGBoost", [r"\bxgboost\b"]),
  ("LightGBM", [r"\blightgbm\b"]),
  ("CatBoost", [r"\bcatboost\b"]),
  ("FastAI", [r"\bfastai\b"]),
  ("MXNet", [r"\bmxnet\b"]),
  ("Theano", [r"\btheano\b"]),
  ("Caffe", [r"\bcaffe\b"]),
  ("ONNX", [r"\bonnx\b"]),
  ("LangChain", [r"\blangchain\b"]),
  ("LlamaIndex", [r"\bllamaindex\b", r"\bllama\s*index\b"]),
  ("OpenAI API", [r"\bopenai\b"]),
  ("Anthropic", [r"\banthropic\b", r"\bclaude\b"]),
  ("GPT", [r"\bgpt-?\d?\b", r"\bchatgpt\b"]),
  ("LLaMA", [r"\bllama\b"]),
  ("BERT", [r"\bbert\b"]),
  ("RAG", [r"\brag\b", r"\bretrieval.augmented\b"]),
  ("Vector DB", [r"\bvector\s*(?:db|database)\b", r"\bpinecone\b", r"\bweaviate\b", r"\bchroma\b", r"\bmilvus\b", r"\bqdrant\b"]),
  ("AWS", [r"\baws\b", r"\bamazon\s*web\s*services\b"]),
  ("GCP", [r"\bgcp\b", r"\bgoogle\s*cloud\b"]),
  ("Azure", [r"\bazure\b", r"\bmicrosoft\s*cloud\b"]),
  ("AWS SageMaker", [r"\bsagemaker\b"]),
  ("Vertex AI", [r"\bvertex\s*ai\b"]),
  ("AWS Bedrock", [r"\bbedrock\b"]),
  ("Databricks", [r"\bdatabricks\b"]),
  ("PostgreSQL", [r"\bpostgres(?:ql)?\b"]),
  ("MySQL", [r"\bmysql\b"]),
  ("MongoDB", [r"\bmongodb\b", r"\bmongo\b"]),
  ("Redis", [r"\bredis\b"]),
  ("Elasticsearch", [r"\belasticsearch\b", r"\belastic\b"]),
  ("Snowflake", [r"\bsnowflake\b"]),
  ("BigQuery", [r"\bbigquery\b"]),
  ("Redshift", [r"\bredshift\b"]),
  ("Cassandra", [r"\bcassandra\b"]),
  ("DynamoDB", [r"\bdynamodb\b"]),
  ("Apache Spark", [r"\bspark\b", r"\bpyspark\b"]),
  ("Hadoop", [r"\bhadoop\b"]),
  ("Kafka", [r"\bkafka\b"]),
  ("Airflow", [r"\bairflow\b"]),
  ("dbt", [r"\bdbt\b"]),
  ("Flink", [r"\bflink\b"]),
  ("Pandas", [r"\bpandas\b"]),
  ("NumPy", [r"\bnumpy\b"]),
  ("SciPy", [r"\bscipy\b"]),
  ("Polars", [r"\bpolars\b"]),
  ("Dask", [r"\bdask\b"]),
  ("Docker", [r"\bdocker\b"]),
  ("Kubernetes", [r"\bkubernetes\b", r"\bk8s\b"]),
  ("Git", [r"\bgit\b(?!hub|lab)"]),
  ("GitHub", [r"\bgithub\b"]),
  ("GitLab", [r"\bgitlab\b"]),
  ("CI/CD", [r"\bci/?cd\b", r"\bcontinuous\s*integration\b"]),
  ("Jenkins", [r"\bjenkins\b"]),
  ("Terraform", [r"\bterraform\b"]),
  ("Ansible", [r"\bansible\b"]),
  ("MLflow", [r"\bmlflow\b"]),
  ("Kubeflow", [r"\bkubeflow\b"]),
  ("Weights & Biases", [r"\bwandb\b", r"\bweights\s*(?:&|and)\s*biases\b"]),
  ("DVC", [r"\bdvc\b"]),
  ("BentoML", [r"\bbentoml\b"]),
  ("Matplotlib", [r"\bmatplotlib\b"]),
  ("Seaborn", [r"\bseaborn\b"]),
  ("Plotly", [r"\bplotly\b"]),
  ("Tableau", [r"\btableau\b"]),
  ("Power BI", [r"\bpower\s*bi\b"]),
  ("Grafana", [r"\bgrafana\b"]),
  ("D3.js", [r"\bd3\.?js\b", r"\bd3\b"]),
  ("CNN", [r"\bcnn\b", r"\bconvolutional\b"]),
  ("RNN", [r"\brnn\b", r"\brecurrent\b"]),
  ("LSTM", [r"\blstm\b"]),
  ("GAN", [r"\bgan\b", r"\bgenerative\s*adversarial\b"]),
  ("Transformer", [r"\btransformer(?:s)?\b"]),
  ("Attention", [r"\battention\s*mechanism\b", r"\bself-attention\b"]),
  ("Diffusion", [r"\bdiffusion\s*model\b"]),
  ("NLP", [r"\bnlp\b", r"\bnatural\s*language\s*processing\b"]),
  ("Computer Vision", [r"\bcomputer\s*vision\b", r"\bcv\b"]),
  ("Deep Learning", [r"\bdeep\s*learning\b", r"\bdl\b"]),
  ("Reinforcement Learning", [r"\breinforcement\s*learning\b", r"\brl\b"]),
  ("Time Series", [r"\btime\s*series\b"]),
  ("Recommendation Systems", [r"\brecommend(?:ation|er)\s*(?:system|engine)?\b"]),
  ("Linux", [r"\blinux\b", r"\bunix\b"]),
  ("Jupyter", [r"\bjupyter\b", r"\bnotebook\b"]),
  ("VS Code", [r"\bvs\s*code\b", r"\bvscode\b"]),
  ("CUDA", [r"\bcuda\b"]),
  ("FastAPI", [r"\bfastapi\b"]),
  ("Flask", [r"\bflask\b"]),
  ("Django", [r"\bdjango\b"]),
  ("REST API", [r"\brest\s*api\b", r"\brestful\b"]),
  ("GraphQL", [r"\bgraphql\b"]),
  ("gRPC", [r"\bgrpc\b"])]

/-- Lines 152-154: compile every pattern once. -/
def COMPILED_PATTERNS : List (String × List (Option Rx)) :=
  PREDEFINED_SKILLS.map (fun p => (p.1, p.2.map compileRx))

/-! ### Matcher (`extract_skills_regex`, lines 157-180) -/

/-- The matcher, parametrised by the compiled lexicon (the source reads
the module-level `COMPILED_PATTERNS`; the table is passed explicitly
here so the empty-text behaviour can be stated for every lexicon).
The returned Python set of display names is represented canonically as
the sublist of lexicon keys whose entry has some matching pattern; the
source's `break` after the first matching pattern of an entry does not
change this membership. -/
def extract_with (lex : List (String × List (Option Rx))) (text : String) :
    List String :=
  if text.toList.isEmpty then []
  else
    let text_lower := text.toList.map Char.toLower
    (lex.filter (fun p => p.2.any (fun o => optSearch o text_lower))).map
      (fun p => p.1)

/-- `extract_skills_regex` against the module's compiled lexicon. -/
def extract_skills_regex (text : String) : List String :=
  extract_with COMPILED_PATTERNS text

/-! ### Aggregator (`aggregate_skills`, lines 183-196)

A Python `Counter` is a dict from skill to count; we model it as an
association list in key-insertion order (Python dicts preserve insertion
order, which is what `most_common`'s stable sort ties break on). -/

/-- The count stored for `s` (0 when absent), i.e. `counter[s]`. -/
def cget : List (String × Nat) → String → Nat
  | [], _ => 0
  | p :: rest, s => if p.1 = s then p.2 else cget rest s

/-- Add 1 to the count of `s`: increment in place when present, append
with count 1 otherwise (dict insertion-order semantics). -/
def bump (c : List (String × Nat)) (s : String) : List (String × Nat) :=
  match c with
  | [] => [(s, 1)]
  | p :: rest => if p.1 = s then (p.1, p.2 + 1) :: rest else p :: bump rest s

/-- `counter.update(skills)`: one increment per element of the iterable. -/
def counterUpdate (c : List (String × Nat)) (skills : List String) :
    List (String × Nat) :=
  skills.foldl bump c

/-- Lines 193-196: fold `update` over the per-job skill sets. -/
def aggregate_skills (all_skills : List (List String)) : List (String × Nat) :=
  all_skills.foldl counterUpdate []

/-! ### Ranker (`rank_skills`, lines 199-207) -/

/-- The descending-count preorder that `Counter.most_common` sorts by. -/
def cntGE (a b : String × Nat) : Prop := b.2 ≤ a.2

instance : DecidableRel cntGE := fun a b => Nat.decLe b.2 a.2

instance : IsTotal (String × Nat) cntGE := ⟨fun a b => Nat.le_total b.2 a.2⟩

instance : IsTrans (String × Nat) cntGE :=
  ⟨fun _ _ _ h h' => Nat.le_trans h' h⟩

/-- `counter.most_common(n)`: stable sort by count descending, first `n`
entries. -/
def most_common (c : List (String × Nat)) (n : Nat) : List (String × Nat) :=
  (List.insertionSort cntGE c).take n

/-- Percentages are modelled in `ℚ` (the Python floats here only carry
the exact value `count / total_jobs * 100`). -/
def pct (count total_jobs : Nat) : ℚ :=
  if total_jobs > 0 then (count : ℚ) / (total_jobs : ℚ) * 100 else 0

/-- Lines 199-207, with the source's `top_n: int = 50` default split into
an explicit parameter plus `rank_skills_default` below. -/
def rank_skills (skill_counts : List (String × Nat)) (total_jobs : Nat)
    (top_n : Nat) : List (String × Nat × ℚ) :=
  (most_common skill_counts top_n).map (fun p => (p.1, p.2, pct p.2 total_jobs))

/-- The ranker as called with its default `top_n = 50`. -/
def rank_skills_default (skill_counts : List (String × Nat))
    (total_jobs : Nat) : List (String × Nat × ℚ) :=
  rank_skills skill_counts total_jobs 50

/-! ### Pipeline (`analyze_skills`, lines 243-272) -/

/-- A job record: the description (possibly missing), the skills field the
pipeline writes, and `other`, standing for every other field of the
Python dict, which the pipeline never touches. -/
structure Job (α : Type) where
  description : Option String
  skills : List String
  other : α
deriving Repr, DecidableEq

/-- `job.get("description", "")`. -/
def jobDesc {α : Type} (j : Job α) : String :=
  j.description.getD ""

/-- The per-job skill sets that reach the aggregator: the non-empty
extraction results, in job order (lines 255-260). -/
def skillBlocks {α : Type} (jobs : List (Job α)) : List (List String) :=
  (jobs.map (fun j => extract_skills_regex (jobDesc j))).filter
    (fun s => !s.isEmpty)

/-- `total_jobs = len(all_skills)` (line 267): jobs that contributed at
least one skill. -/
def total_jobs_considered {α : Type} (jobs : List (Job α)) : Nat :=
  (skillBlocks jobs).length

/-- `analyze_skills`: returns the job list after the in-place
`job["skills"] = list(skills)` mutation of every record, paired with the
ranked list the function returns.  When no job matched any skill the
ranked list is empty (lines 262-264). -/
def analyze_skills {α : Type} (jobs : List (Job α)) :
    List (Job α) × List (String × Nat × ℚ) :=
  let jobs' := jobs.map (fun j =>
    { j with skills := extract_skills_regex (jobDesc j) })
  let all_skills := skillBlocks jobs
  if all_skills.isEmpty then (jobs', [])
  else
    (jobs', rank_skills_default (aggregate_skills all_skills)
      all_skills.length)

/-- Lines 275-277. -/
def get_predefined_skills : List String :=
  PREDEFINED_SKILLS.map (fun p => p.1)

/-! ### Name Normalizer -/

/-- Lowercasing, at the character-list level (ASCII-faithful to Python's
`str.lower` on this program's inputs). -/
def strLower (s : String) : String :=
  ⟨s.toList.map Char.toLower⟩

/-- `str.strip()`: drop leading and trailing whitespace. -/
def strTrim (s : String) : String :=
  ⟨(((s.toList.dropWhile (fun c => wsChars.contains c)).reverse.dropWhile
    (fun c => wsChars.contains c)).reverse)⟩

/-- Modelled from the spec: the Name Normalizer's synonym table is not
present under `src/` (only the lexicon matcher is).  Per the spec it maps
a lowercase alias to the canonical display name, and every lexicon
canonical name is reachable as its own alias (identity mapping), so in
particular `"pytorch" ↦ "PyTorch"`. -/
def SYNONYMS : List (String × String) :=
  PREDEFINED_SKILLS.map (fun p => (strLower p.1, p.1))

/-- Modelled from the spec: `normalize(rawSkillName)` looks the trimmed,
lowercased input up in the synonym table and returns the mapped canonical
form when found, otherwise the trimmed original string unchanged. -/
def normalize (raw : String) : String :=
  let t := strTrim raw
  match SYNONYMS.find? (fun p => p.1 == strLower t) with
  | some p => p.2
  | none => t

/-! ## Lemmas about the Counter model -/

theorem cget_bump (c : List (String × Nat)) (s t : String) :
    cget (bump c t) s = cget c s + (if t = s then 1 else 0) := by
  induction c with
  | nil =>
    by_cases h : t = s <;> simp [bump, cget, h]
  | cons p rest ih =>
    by_cases hp : p.1 = t
    · rw [show bump (p :: rest) t = (p.1, p.2 + 1) :: rest from by simp [bump, hp]]
      by_cases hs : p.1 = s
      · have hts : t = s := hp.symm.trans hs
        simp [cget, hs, hts]
      · have hts : ¬ t = s := fun h => hs (hp.trans h)
        simp [cget, hs, hts]
    · rw [show bump (p :: rest) t = p :: bump rest t from by simp [bump, hp]]
      by_cases hs : p.1 = s
      · have hts : ¬ t = s := fun h => hp (hs.trans h.symm)
        simp [cget, hs, hts]
      · simp [cget, hs, ih]

theorem cget_counterUpdate_nodup (b : List String) (c : List (String × Nat))
    (s : String) (hb : b.Nodup) :
    cget (counterUpdate c b) s = cget c s + (if s ∈ b then 1 else 0) := by
  induction b generalizing c with
  | nil => simp [counterUpdate]
  | cons a b ih =>
    have hb' : b.Nodup := (List.nodup_cons.mp hb).2
    have hstep : counterUpdate c (a :: b) = counterUpdate (bump c a) b := rfl
    rw [hstep, ih _ hb', cget_bump]
    by_cases has : a = s
    · have hnb : s ∉ b := has ▸ (List.nodup_cons.mp hb).1
      simp [has, hnb]
    · have hsa : ¬ s = a := fun h => has h.symm
      by_cases hm : s ∈ b <;> simp [List.mem_cons, has, hsa, hm]

theorem cget_foldl_update (blocks : List (List String))
    (c : List (String × Nat)) (s : String) (h : ∀ b ∈ blocks, b.Nodup) :
    cget (blocks.foldl counterUpdate c) s
      = cget c s + (blocks.filter (fun b => decide (s ∈ b))).length := by
  induction blocks generalizing c with
  | nil => simp
  | cons b blocks ih =>
    have hb : b.Nodup := h b (List.mem_cons_self b blocks)
    have h' : ∀ x ∈ blocks, x.Nodup := fun x hx => h x (List.mem_cons_of_mem _ hx)
    rw [List.foldl_cons, ih _ h', cget_counterUpdate_nodup _ _ _ hb]
    by_cases hm : s ∈ b
    · simp [hm, List.filter_cons]
      omega
    · simp [hm, List.filter_cons]

theorem cget_aggregate (blocks : List (List String)) (s : String)
    (h : ∀ b ∈ blocks, b.Nodup) :
    cget (aggregate_skills blocks) s
      = (blocks.filter (fun b => decide (s ∈ b))).length := by
  have hz := cget_foldl_update blocks [] s h
  simpa [aggregate_skills, cget] using hz

/-- The key list of a counter, in insertion order. -/
def keys (c : List (String × Nat)) : List String := c.map Prod.fst

theorem keys_bump (c : List (String × Nat)) (s : String) :
    keys (bump c s) = if s ∈ keys c then keys c else keys c ++ [s] := by
  induction c with
  | nil => simp [bump, keys]
  | cons p rest ih =>
    by_cases hp : p.1 = s
    · rw [show bump (p :: rest) s = (p.1, p.2 + 1) :: rest from by simp [bump, hp]]
      simp [keys, ← hp]
    · rw [show bump (p :: rest) s = p :: bump rest s from by simp [bump, hp]]
      have hps : ¬ s = p.1 := fun h => hp h.symm
      simp only [keys, List.map_cons] at ih ⊢
      rw [ih]
      by_cases hm : s ∈ rest.map Prod.fst <;>
        simp [hm, hps, List.mem_cons]

theorem keys_nodup_bump (c : List (String × Nat)) (s : String)
    (h : (keys c).Nodup) : (keys (bump c s)).Nodup := by
  rw [keys_bump]
  by_cases hm : s ∈ keys c <;> simp [hm, h, List.nodup_append]

theorem keys_nodup_counterUpdate (b : List String) (c : List (String × Nat))
    (h : (keys c).Nodup) : (keys (counterUpdate c b)).Nodup := by
  induction b generalizing c with
  | nil => exact h
  | cons a b ih => exact ih _ (keys_nodup_bump _ _ h)

theorem keys_nodup_foldl (blocks : List (List String))
    (c : List (String × Nat)) (h : (keys c).Nodup) :
    (keys (blocks.foldl counterUpdate c)).Nodup := by
  induction blocks generalizing c with
  | nil => exact h
  | cons b bs ih => exact ih _ (keys_nodup_counterUpdate _ _ h)

theorem keys_nodup_aggregate (blocks : List (List String)) :
    (keys (aggregate_skills blocks)).Nodup :=
  keys_nodup_foldl blocks [] (by simp [keys])

theorem mem_val_eq_cget (c : List (String × Nat)) (h : (keys c).Nodup)
    (p : String × Nat) (hp : p ∈ c) : p.2 = cget c p.1 := by
  induction c with
  | nil => cases hp
  | cons q rest ih =>
    have hq : (q.1 ∉ keys rest) ∧ (keys rest).Nodup := by
      simpa [keys] using h
    rcases List.mem_cons.mp hp with rfl | hmem
    · simp [cget]
    · have hne : ¬ q.1 = p.1 := by
        intro e
        exact hq.1 (e ▸ List.mem_map_of_mem Prod.fst hmem)
      simp [cget, hne, ih hq.2 hmem]

theorem mem_keys_counterUpdate (b : List String) (c : List (String × Nat))
    (k : String) (h : k ∈ keys (counterUpdate c b)) : k ∈ keys c ∨ k ∈ b := by
  induction b generalizing c with
  | nil => exact Or.inl h
  | cons a b ih =>
    have hstep : counterUpdate c (a :: b) = counterUpdate (bump c a) b := rfl
    rw [hstep] at h
    rcases ih _ h with h' | h'
    · rw [keys_bump] at h'
      by_cases hm : a ∈ keys c
      · simp [hm] at h'
        exact Or.inl h'
      · simp [hm] at h'
        rcases h' with h' | rfl
        · exact Or.inl h'
        · exact Or.inr (List.mem_cons_self _ _)
    · exact Or.inr (List.mem_cons_of_mem _ h')

theorem mem_keys_foldl (blocks : List (List String)) (c : List (String × Nat))
    (k : String) (h : k ∈ keys (blocks.foldl counterUpdate c)) :
    k ∈ keys c ∨ ∃ b ∈ blocks, k ∈ b := by
  induction blocks generalizing c with
  | nil => exact Or.inl h
  | cons b bs ih =>
    rw [List.foldl_cons] at h
    rcases ih _ h with h' | ⟨x, hx, hk⟩
    · rcases mem_keys_counterUpdate _ _ _ h' with h'' | h''
      · exact Or.inl h''
      · exact Or.inr ⟨b, List.mem_cons_self _ _, h''⟩
    · exact Or.inr ⟨x, List.mem_cons_of_mem _ hx, hk⟩

theorem mem_keys_aggregate (blocks : List (List String)) (k : String)
    (h : k ∈ keys (aggregate_skills blocks)) : ∃ b ∈ blocks, k ∈ b := by
  rcases mem_keys_foldl blocks [] k h with h' | h'
  · simp [keys] at h'
  · exact h'

/-! ## Lemmas about the matcher -/

theorem extract_with_sublist (lex : List (String × List (Option Rx)))
    (t : String) : List.Sublist (extract_with lex t) (lex.map Prod.fst) := by
  unfold extract_with
  by_cases h : t.toList.isEmpty
  · have h' : t.data = [] := by simpa [String.toList] using h
    simp [h']
  · simp only [h, Bool.false_eq_true, if_false]
    exact List.Sublist.map Prod.fst (List.filter_sublist lex)

theorem predefined_keys_nodup : get_predefined_skills.Nodup := by decide

theorem compiled_keys : COMPILED_PATTERNS.map Prod.fst = get_predefined_skills := by
  simp [COMPILED_PATTERNS, get_predefined_skills, List.map_map]

theorem extract_sub_predefined (t : String) :
    ∀ s ∈ extract_skills_regex t, s ∈ get_predefined_skills := by
  intro s hs
  have h := (extract_with_sublist COMPILED_PATTERNS t).subset hs
  rwa [compiled_keys] at h

theorem extract_nodup (t : String) : (extract_skills_regex t).Nodup := by
  refine (extract_with_sublist COMPILED_PATTERNS t).nodup ?_
  rw [compiled_keys]
  exact predefined_keys_nodup

theorem skillBlocks_nodup {α : Type} (jobs : List (Job α)) :
    ∀ b ∈ skillBlocks jobs, b.Nodup := by
  intro b hb
  have hm := List.mem_of_mem_filter hb
  rcases List.mem_map.mp hm with ⟨j, _, rfl⟩
  exact extract_nodup _

theorem mem_skillBlocks_sub_predefined {α : Type} (jobs : List (Job α))
    (b : List String) (hb : b ∈ skillBlocks jobs) :
    ∀ s ∈ b, s ∈ get_predefined_skills := by
  have hm := List.mem_of_mem_filter hb
  rcases List.mem_map.mp hm with ⟨j, _, rfl⟩
  exact extract_sub_predefined _

/-! ## Lemmas about the ranker -/

theorem mem_rank_skills (counts : List (String × Nat)) (total n : Nat)
    (e : String × Nat × ℚ) (he : e ∈ rank_skills counts total n) :
    ∃ p ∈ counts, e = (p.1, p.2, pct p.2 total) := by
  rcases List.mem_map.mp he with ⟨p, hp, rfl⟩
  have h1 : p ∈ List.insertionSort cntGE counts :=
    (List.take_sublist n _).subset hp
  exact ⟨p, (List.perm_insertionSort cntGE counts).subset h1, rfl⟩

theorem rank_skills_pairwise (counts : List (String × Nat)) (total n : Nat) :
    List.Pairwise (fun a b : String × Nat × ℚ => b.2.1 ≤ a.2.1)
      (rank_skills counts total n) := by
  unfold rank_skills most_common
  rw [List.pairwise_map]
  exact List.Pairwise.sublist (List.take_sublist n _)
    (List.sorted_insertionSort cntGE counts)

theorem rank_skills_length (counts : List (String × Nat)) (total n : Nat) :
    (rank_skills counts total n).length ≤ n := by
  simp [rank_skills, most_common]

theorem pct_nonneg (c t : Nat) : 0 ≤ pct c t := by
  unfold pct
  split
  · positivity
  · exact le_refl 0

theorem pct_le_100 (c t : Nat) (h : c ≤ t) : pct c t ≤ 100 := by
  unfold pct
  split
  · rename_i ht
    have ht' : (0 : ℚ) < t := by exact_mod_cast ht
    have hc : (c : ℚ) ≤ t := by exact_mod_cast h
    calc (c : ℚ) / t * 100 ≤ 1 * 100 := by
          apply mul_le_mul_of_nonneg_right _ (by norm_num)
          exact (div_le_one ht').mpr hc
      _ = 100 := by norm_num
  · norm_num

/-! ## Lemmas about the pipeline -/

theorem analyze_fst {α : Type} (jobs : List (Job α)) :
    (analyze_skills jobs).1 = jobs.map (fun j =>
      { j with skills := extract_skills_regex (jobDesc j) }) := by
  by_cases h : (skillBlocks jobs).isEmpty = true <;> simp [analyze_skills, h]

theorem analyze_snd_empty {α : Type} (jobs : List (Job α))
    (h : (skillBlocks jobs).isEmpty = true) : (analyze_skills jobs).2 = [] := by
  simp [analyze_skills, h]

theorem analyze_snd {α : Type} (jobs : List (Job α))
    (h : ¬ (skillBlocks jobs).isEmpty = true) :
    (analyze_skills jobs).2 =
      rank_skills (aggregate_skills (skillBlocks jobs))
        (skillBlocks jobs).length 50 := by
  simp [analyze_skills, h, rank_skills_default]

theorem aggregate_val_le {α : Type} (jobs : List (Job α)) (p : String × Nat)
    (hp : p ∈ aggregate_skills (skillBlocks jobs)) :
    p.2 ≤ (skillBlocks jobs).length := by
  have h1 := mem_val_eq_cget _ (keys_nodup_aggregate _) p hp
  rw [h1, cget_aggregate _ _ (skillBlocks_nodup jobs)]
  exact List.length_filter_le _ _

/-! ## The claims -/

/-- The three-job corpus of the end-to-end scenario. -/
def c1jobs : List (Job Unit) :=
  [⟨some "Python, TensorFlow, AWS, Docker, SQL", [], ()⟩,
   ⟨some "Python, PyTorch, GCP, Kubernetes, SQL", [], ()⟩,
   ⟨some "Java, TensorFlow, Azure, Docker, MongoDB", [], ()⟩]

/-- The pipeline's literal output on the three-job corpus (in the model's
deterministic tie order; ties among equal counts are not fixed by the
source, so the claim below is stated up to permutation). -/
theorem c1_out_eq :
    (analyze_skills c1jobs).2 =
      [("Python", 2, pct 2 3), ("SQL", 2, pct 2 3), ("TensorFlow", 2, pct 2 3),
       ("Docker", 2, pct 2 3), ("AWS", 1, pct 1 3), ("PyTorch", 1, pct 1 3),
       ("GCP", 1, pct 1 3), ("Kubernetes", 1, pct 1 3), ("Java", 1, pct 1 3),
       ("Azure", 1, pct 1 3), ("MongoDB", 1, pct 1 3)] := rfl

/-- C1: on the three-job corpus, `analyze` returns a ranked list in which
Python, TensorFlow, Docker and SQL each have count 2 (percentage 200/3),
each of AWS, PyTorch, GCP, Kubernetes, Java, Azure and MongoDB has
count 1 (percentage 100/3), no other skill appears, and
`totalJobsConsidered` equals 3. -/
theorem C1_end_to_end_corpus :
    ((analyze_skills c1jobs).2).Perm
      [("Python", 2, (200 : ℚ)/3), ("TensorFlow", 2, (200 : ℚ)/3),
       ("Docker", 2, (200 : ℚ)/3), ("SQL", 2, (200 : ℚ)/3),
       ("AWS", 1, (100 : ℚ)/3), ("PyTorch", 1, (100 : ℚ)/3),
       ("GCP", 1, (100 : ℚ)/3), ("Kubernetes", 1, (100 : ℚ)/3),
       ("Java", 1, (100 : ℚ)/3), ("Azure", 1, (100 : ℚ)/3),
       ("MongoDB", 1, (100 : ℚ)/3)] ∧
    total_jobs_considered c1jobs = 3 := by
  constructor
  · have h2 : pct 2 3 = (200 : ℚ)/3 := by norm_num [pct]
    have h1 : pct 1 3 = (100 : ℚ)/3 := by norm_num [pct]
    rw [c1_out_eq, h2, h1]
    exact List.Perm.cons _
      ((List.Perm.swap _ _ _).trans (List.Perm.cons _ (List.Perm.swap _ _ _)))
  · decide

/-- C2: the aggregator adds exactly 1 per job whose set contains the
skill; a job with description "Python Python Python" contributes count 1
to Python; and every aggregated pipeline count is bounded by the number
of jobs whose description matched that skill. -/
theorem C2_per_job_dedup :
    (∀ (blocks : List (List String)) (s : String),
      (∀ b ∈ blocks, b.Nodup) →
      cget (aggregate_skills blocks) s
        = (blocks.filter (fun b => decide (s ∈ b))).length) ∧
    cget (aggregate_skills [extract_skills_regex "Python Python Python"])
      "Python" = 1 ∧
    (∀ (jobs : List (Job Unit)) (s : String),
      cget (aggregate_skills (skillBlocks jobs)) s
        ≤ (jobs.filter
            (fun j => decide (s ∈ extract_skills_regex (jobDesc j)))).length) := by
  refine ⟨cget_aggregate, by decide, ?_⟩
  intro jobs s
  rw [cget_aggregate _ _ (skillBlocks_nodup jobs)]
  unfold skillBlocks
  rw [List.filter_filter]
  have hstep :
      List.filter (fun a => decide (s ∈ a) && !a.isEmpty)
        (jobs.map (fun j => extract_skills_regex (jobDesc j)))
      = List.filter (fun a => decide (s ∈ a))
        (jobs.map (fun j => extract_skills_regex (jobDesc j))) := by
    apply List.filter_congr
    intro a _
    by_cases hm : s ∈ a
    · simp [hm, List.ne_nil_of_mem hm]
    · simp [hm]
  rw [hstep, List.filter_map, List.length_map]
  exact Nat.le_of_eq rfl

/-- Witness for C2 at a concrete one-job corpus of skill sets. -/
theorem C2_per_job_dedup_witness :
    (∀ b ∈ [["Python", "SQL"]], List.Nodup b) ∧
    cget (aggregate_skills [["Python", "SQL"]]) "Python"
      = (([["Python", "SQL"]] : List (List String)).filter
          (fun b => decide ("Python" ∈ b))).length :=
  ⟨by decide, C2_per_job_dedup.1 [["Python", "SQL"]] "Python" (by decide)⟩

/-- C3: "We use JavaScript heavily" does not match Java while
"We use Java heavily" does; "Experience with GitHub Actions" does not
match Git while GitHub does match. -/
theorem C3_lexicon_exclusions :
    "Java" ∉ extract_skills_regex "We use JavaScript heavily" ∧
    "Java" ∈ extract_skills_regex "We use Java heavily" ∧
    "Git" ∉ extract_skills_regex "Experience with GitHub Actions" ∧
    "GitHub" ∈ extract_skills_regex "Experience with GitHub Actions" := by
  exact ⟨by decide, by decide, by decide, by decide⟩

/-- C4: every ranked entry's percentage is `100 * count / total` when
`total > 0` and `0` when `total = 0`; and every percentage produced by
the analyze pipeline lies in `[0, 100]`. -/
theorem C4_percentage_bounds :
    (∀ (counts : List (String × Nat)) (total n : Nat),
      ∀ e ∈ rank_skills counts total n,
        e.2.2 = if 0 < total then 100 * (e.2.1 : ℚ) / total else 0) ∧
    (∀ (jobs : List (Job Unit)), ∀ e ∈ (analyze_skills jobs).2,
      0 ≤ e.2.2 ∧ e.2.2 ≤ 100) := by
  constructor
  · intro counts total n e he
    rcases mem_rank_skills counts total n e he with ⟨p, _, rfl⟩
    show pct p.2 total = if 0 < total then 100 * ((p.2 : ℚ)) / total else 0
    unfold pct
    split <;> rename_i h
    · ring
    · rfl
  · intro jobs e he
    by_cases hb : (skillBlocks jobs).isEmpty = true
    · rw [analyze_snd_empty jobs hb] at he
      cases he
    · rw [analyze_snd jobs hb] at he
      rcases mem_rank_skills _ _ _ e he with ⟨p, hp, rfl⟩
      exact ⟨pct_nonneg _ _, pct_le_100 _ _ (aggregate_val_le jobs p hp)⟩

/-- The pipeline's literal output on a one-job corpus, for the witness. -/
theorem c4w_out :
    (analyze_skills [(⟨some "Python", [], ()⟩ : Job Unit)]).2
      = [("Python", 1, pct 1 1)] := rfl

/-- Witness for C4 at a concrete one-job pipeline run. -/
theorem C4_percentage_bounds_witness :
    (("Python", 1, pct 1 1) ∈
      (analyze_skills [(⟨some "Python", [], ()⟩ : Job Unit)]).2) ∧
    (0 ≤ pct 1 1 ∧ pct 1 1 ≤ 100) ∧
    pct 1 1 = if 0 < (1 : Nat) then 100 * (((1 : Nat)) : ℚ) / (1 : Nat) else 0 :=
  have hm : ("Python", 1, pct 1 1) ∈
      (analyze_skills [(⟨some "Python", [], ()⟩ : Job Unit)]).2 := by
    rw [c4w_out]
    exact List.mem_singleton_self _
  have hr : ("Python", 1, pct 1 1) ∈ rank_skills [("Python", 1)] 1 50 := by
    rw [show rank_skills [("Python", 1)] 1 50 = [("Python", 1, pct 1 1)] from rfl]
    exact List.mem_singleton_self _
  ⟨hm, C4_percentage_bounds.2 _ _ hm,
    C4_percentage_bounds.1 [("Python", 1)] 1 50 _ hr⟩

/-- C5: the ranker's output is sorted descending by count between all
adjacent entries, has at most `topN` entries, and `topN` is a parameter
whose default is 50. -/
theorem C5_ranking_order :
    (∀ (counts : List (String × Nat)) (total n : Nat),
      List.Chain' (fun a b : String × Nat × ℚ => b.2.1 ≤ a.2.1)
        (rank_skills counts total n) ∧
      (rank_skills counts total n).length ≤ n) ∧
    (∀ (counts : List (String × Nat)) (total : Nat),
      rank_skills_default counts total = rank_skills counts total 50) :=
  ⟨fun counts total n =>
    ⟨(rank_skills_pairwise counts total n).chain',
     rank_skills_length counts total n⟩,
   fun _ _ => rfl⟩

/-- C6: the normalizer returns the synonym table's canonical form for the
trimmed lowercased input when present, and the trimmed original
otherwise; in particular `normalize "pytorch" = "PyTorch"` and
`normalize "SomeNewTool" = "SomeNewTool"`. -/
theorem C6_normalizer :
    normalize "pytorch" = "PyTorch" ∧
    normalize "SomeNewTool" = "SomeNewTool" ∧
    (∀ (raw : String) (c : String × String),
      SYNONYMS.find? (fun p => p.1 == strLower (strTrim raw)) = some c →
      normalize raw = c.2) ∧
    (∀ raw : String,
      SYNONYMS.find? (fun p => p.1 == strLower (strTrim raw)) = none →
      normalize raw = strTrim raw) := by
  refine ⟨by decide, by decide, ?_, ?_⟩
  · intro raw c h
    simp [normalize, h]
  · intro raw h
    simp [normalize, h]

/-- Witness for C6 at concrete lookups. -/
theorem C6_normalizer_witness :
    (SYNONYMS.find? (fun p => p.1 == strLower (strTrim "SomeNewTool")) = none) ∧
    normalize "SomeNewTool" = strTrim "SomeNewTool" ∧
    (SYNONYMS.find? (fun p => p.1 == strLower (strTrim "pytorch"))
      = some ("pytorch", "PyTorch")) ∧
    normalize "pytorch" = "PyTorch" :=
  ⟨by decide,
   C6_normalizer.2.2.2 "SomeNewTool" (by decide),
   by decide,
   C6_normalizer.2.2.1 "pytorch" ("pytorch", "PyTorch") (by decide)⟩

/-- C7: whenever no job's description matches any skill, `analyze`
returns an empty ranked list. -/
theorem C7_empty_corpus :
    ∀ (jobs : List (Job Unit)),
      (∀ j ∈ jobs, extract_skills_regex (jobDesc j) = []) →
      (analyze_skills jobs).2 = [] := by
  intro jobs h
  have hb : skillBlocks jobs = [] := by
    unfold skillBlocks
    rw [List.filter_eq_nil_iff]
    intro a ha
    rcases List.mem_map.mp ha with ⟨j, hj, rfl⟩
    simp [h j hj]
  apply analyze_snd_empty
  rw [hb]
  rfl

/-- Witness for C7 at a one-job corpus with an empty description. -/
theorem C7_empty_corpus_witness :
    (∀ j ∈ [(⟨some "", [], ()⟩ : Job Unit)],
      extract_skills_regex (jobDesc j) = []) ∧
    (analyze_skills [(⟨some "", [], ()⟩ : Job Unit)]).2 = [] :=
  ⟨by decide, C7_empty_corpus _ (by decide)⟩

/-- C8: the matcher returns the empty set on empty text for every
lexicon, and a missing description yields zero skills. -/
theorem C8_empty_text :
    (∀ lex : List (String × List (Option Rx)), extract_with lex "" = []) ∧
    (∀ skills : List String,
      extract_skills_regex (jobDesc (⟨none, skills, ()⟩ : Job Unit)) = []) :=
  ⟨fun _ => rfl, fun _ => rfl⟩

/-- C9: `analyze` writes each job's skills field from its description and
changes nothing else about the job records. -/
theorem C9_frame_property :
    ∀ (α : Type) (jobs : List (Job α)),
      (analyze_skills jobs).1.map Job.description = jobs.map Job.description ∧
      (analyze_skills jobs).1.map Job.other = jobs.map Job.other ∧
      (analyze_skills jobs).1.map Job.skills
        = jobs.map (fun j => extract_skills_regex (jobDesc j)) := by
  intro α jobs
  rw [analyze_fst]
  refine ⟨?_, ?_, ?_⟩ <;> simp [List.map_map, Function.comp]

/-- C10: every matched skill name, every skills field the pipeline
writes, and every ranked name is a key of the predefined lexicon. -/
theorem C10_closed_lexicon :
    (∀ (text : String), ∀ s ∈ extract_skills_regex text,
      s ∈ get_predefined_skills) ∧
    (∀ (jobs : List (Job Unit)),
      (∀ j ∈ (analyze_skills jobs).1, ∀ s ∈ j.skills,
        s ∈ get_predefined_skills) ∧
      (∀ e ∈ (analyze_skills jobs).2, e.1 ∈ get_predefined_skills)) := by
  refine ⟨extract_sub_predefined, ?_⟩
  intro jobs
  constructor
  · intro j hj s hs
    rw [analyze_fst] at hj
    rcases List.mem_map.mp hj with ⟨j₀, _, rfl⟩
    exact extract_sub_predefined _ s hs
  · intro e he
    by_cases hb : (skillBlocks jobs).isEmpty = true
    · rw [analyze_snd_empty jobs hb] at he
      cases he
    · rw [analyze_snd jobs hb] at he
      rcases mem_rank_skills _ _ _ e he with ⟨p, hp, rfl⟩
      have hk : p.1 ∈ keys (aggregate_skills (skillBlocks jobs)) :=
        List.mem_map_of_mem Prod.fst hp
      rcases mem_keys_aggregate _ _ hk with ⟨b, hbm, hsb⟩
      exact mem_skillBlocks_sub_predefined jobs b hbm _ hsb

/-- Witness for C10 at a concrete text and pipeline run. -/
theorem C10_closed_lexicon_witness :
    ("Python" ∈ extract_skills_regex "Python tooling") ∧
    "Python" ∈ get_predefined_skills :=
  ⟨by decide, C10_closed_lexicon.1 "Python tooling" "Python" (by decide)⟩

end Scrapper



